import Mathlib

/-!
Shallow embedding, in Lean 4, of the document-analysis core of the
Legal_AI_Analyzer repository (`legal_document_processor.py`,
`simple_api.py`).  Text is modelled as `String` / `List Char`, scores as
`ℚ`, fallible collaborator calls as `Except String _`.  Python dicts whose
keys come from a fixed iteration order are modelled as association lists
in insertion order.
-/

namespace LegalAI

/-- The fixed keyword taxonomy of `classify_document_type`
(`legal_document_processor.py`, lines 78-84), in declaration order. -/
def doc_indicators : List (String × List String) :=
  [("contract", ["agreement", "party", "whereas", "covenant"]),
   ("license", ["license", "licensor", "licensee", "grant"]),
   ("lease", ["lease", "lessor", "lessee", "rent", "premises"]),
   ("employment", ["employee", "employer", "employment", "salary"]),
   ("nda", ["confidential", "non-disclosure", "proprietary"])]

/-- Python `str.lower`, restricted to the ASCII case mapping. -/
def strLower (s : String) : String := String.mk (s.data.map Char.toLower)

/-- Does `pat` occur as a contiguous run starting at some position of the
second list? -/
def containsSubAux (pat : List Char) : List Char → Bool
  | [] => pat.isEmpty
  | c :: rest => pat.isPrefixOf (c :: rest) || containsSubAux pat rest

/-- Python's `pat in hay` substring test on strings. -/
def containsSub (hay pat : String) : Bool := containsSubAux pat.data hay.data

/-- Result shape of `classify_document_type`. -/
structure ClassificationResult where
  document_type : String
  confidence : ℚ
  all_scores : List (String × ℚ)
  deriving Repr, DecidableEq

/-- Python `max(scores, key=scores.get)` over an association list in
iteration order: the first entry attaining the maximal value wins, since
`max` only replaces the current best on a strictly greater key.  The
`[]` case is unreachable on the classifier's non-empty taxonomy (Python
would raise `ValueError`). -/
def pyStep (best y : String × ℚ) : String × ℚ := if y.2 > best.2 then y else best

def pyMaxPair : List (String × ℚ) → String × ℚ
  | [] => ("", 0)
  | x :: xs => xs.foldl pyStep x

/-- The score map built by `classify_document_type`: for each taxonomy
entry, the number of its indicator keywords occurring (case-insensitively,
presence only, capped at 1 each) in the text, divided by the keyword-set
size. -/
def classifierScores (text : String) : List (String × ℚ) :=
  doc_indicators.map (fun ti =>
    (ti.1, ((ti.2.countP (fun ind => containsSub (strLower text) ind) : ℚ) / (ti.2.length : ℚ))))

/-- `classify_document_type` (`legal_document_processor.py`, lines 76-100):
the predicted type is the arg-max key of the score map and the confidence
is that key's score looked up in the map (the lookup cannot miss; `getD 0`
stands for Python's raising dict access). -/
def classify_document_type (text : String) : ClassificationResult :=
  let scores := classifierScores text
  let predicted := pyMaxPair scores
  { document_type := predicted.1
    confidence := (List.lookup predicted.1 scores).getD 0
    all_scores := scores }

/-- The fold inside `pyMaxPair` returns an element of the list such that
everything strictly before it scores strictly less and every element of
the list scores no more: the first arg-max. -/
theorem pyMaxFold_split (x : String × ℚ) (xs : List (String × ℚ)) :
    ∃ l₁ l₂,
      x :: xs = l₁ ++ (xs.foldl pyStep x) :: l₂
      ∧ (∀ p ∈ l₁, p.2 < (xs.foldl pyStep x).2)
      ∧ (∀ p ∈ x :: xs, p.2 ≤ (xs.foldl pyStep x).2) := by
  induction xs generalizing x with
  | nil =>
    exact ⟨[], [], rfl, by simp, by simp⟩
  | cons y ys ih =>
    rw [List.foldl_cons]
    by_cases hy : y.2 > x.2
    · rw [show pyStep x y = y from if_pos hy]
      obtain ⟨l₁, l₂, heq, hlt, hle⟩ := ih y
      have hyle : y.2 ≤ (ys.foldl pyStep y).2 := hle y (List.mem_cons_self y ys)
      refine ⟨x :: l₁, l₂, ?_, ?_, ?_⟩
      · rw [List.cons_append, ← heq]
      · intro p hp
        rcases List.mem_cons.mp hp with h | h
        · subst h; exact lt_of_lt_of_le hy hyle
        · exact hlt p h
      · intro p hp
        rcases List.mem_cons.mp hp with h | h
        · subst h; exact le_of_lt (lt_of_lt_of_le hy hyle)
        · exact hle p h
    · rw [show pyStep x y = x from if_neg hy]
      obtain ⟨l₁, l₂, heq, hlt, hle⟩ := ih x
      have hxle : x.2 ≤ (ys.foldl pyStep x).2 := hle x (List.mem_cons_self x ys)
      have hyle : y.2 ≤ (ys.foldl pyStep x).2 := le_trans (not_lt.mp hy) hxle
      rcases l₁ with _ | ⟨z, l₁'⟩
      · rw [List.nil_append] at heq
        have hx1 := (List.cons_eq_cons.mp heq).1
        have hx2 := (List.cons_eq_cons.mp heq).2
        refine ⟨[], y :: l₂, ?_, by simp, ?_⟩
        · rw [List.nil_append, ← hx1, ← hx2]
        · intro p hp
          rcases List.mem_cons.mp hp with h | h
          · subst h; exact hxle
          rcases List.mem_cons.mp h with h' | h'
          · subst h'; exact hyle
          · exact hle p (List.mem_cons_of_mem x h')
      · have hz : x = z := (List.cons_eq_cons.mp heq).1
        subst hz
        have hys : ys = l₁' ++ (ys.foldl pyStep x) :: l₂ := (List.cons_eq_cons.mp heq).2
        have hxlt : x.2 < (ys.foldl pyStep x).2 := hlt x (List.mem_cons_self x l₁')
        refine ⟨x :: y :: l₁', l₂, ?_, ?_, ?_⟩
        · rw [List.cons_append, List.cons_append, ← hys]
        · intro p hp
          rcases List.mem_cons.mp hp with rfl | h
          · exact hxlt
          rcases List.mem_cons.mp h with rfl | h'
          · exact lt_of_le_of_lt (not_lt.mp hy) hxlt
          · exact hlt p (List.mem_cons_of_mem x h')
        · intro p hp
          rcases List.mem_cons.mp hp with rfl | h
          · exact hxle
          rcases List.mem_cons.mp h with rfl | h'
          · exact hyle
          · exact hle p (List.mem_cons_of_mem x h')

/-- Looking a key up in an association list with pairwise-distinct keys
finds exactly the value that key is paired with. -/
theorem lookup_nodup {α β : Type} [BEq α] [LawfulBEq α] (l : List (α × β)) (k : α) (v : β)
    (hnd : (l.map Prod.fst).Nodup) (hmem : (k, v) ∈ l) : List.lookup k l = some v := by
  induction l with
  | nil => cases hmem
  | cons p t ih =>
    obtain ⟨a, b⟩ := p
    rw [List.map_cons, List.nodup_cons] at hnd
    rcases List.mem_cons.mp hmem with h | h
    · rw [← h]
      simp [List.lookup]
    · have hk : (k == a) = false := by
        refine beq_eq_false_iff_ne.mpr ?_
        intro he
        exact hnd.1 (he ▸ List.mem_map.mpr ⟨(k, v), h, rfl⟩)

      simpa [List.lookup, hk] using ih hnd.2 h

/-- C1: the classifier's score map assigns every taxonomy type the count of
its indicator keywords present in the text divided by the keyword-set size,
so every score lies in [0,1]; the reported `document_type`/`confidence`
pair occurs in the score map, every entry declared before it scores
strictly less (first-declared wins exact ties), and no entry anywhere
scores more (arg-max). -/
theorem classifier_scores_in_unit_and_argmax (text : String) :
    (∀ p ∈ (classify_document_type text).all_scores, 0 ≤ p.2 ∧ p.2 ≤ 1) ∧
    (∃ l₁ l₂,
      (classify_document_type text).all_scores
        = l₁ ++ ((classify_document_type text).document_type,
                 (classify_document_type text).confidence) :: l₂
      ∧ (∀ p ∈ l₁, p.2 < (classify_document_type text).confidence)
      ∧ (∀ p ∈ (classify_document_type text).all_scores,
            p.2 ≤ (classify_document_type text).confidence)) := by
  obtain ⟨s, rest, hsr⟩ : ∃ s rest, classifierScores text = s :: rest := ⟨_, _, rfl⟩
  have hall : (classify_document_type text).all_scores = classifierScores text := rfl
  have hdt : (classify_document_type text).document_type
      = (pyMaxPair (classifierScores text)).1 := rfl
  have hconf_def : (classify_document_type text).confidence
      = (List.lookup (pyMaxPair (classifierScores text)).1 (classifierScores text)).getD 0 := rfl
  obtain ⟨l₁, l₂, heq, hlt, hle⟩ := pyMaxFold_split s rest
  set r := rest.foldl pyStep s with hr
  have hpy : pyMaxPair (classifierScores text) = r := by rw [hsr]; rfl
  have hmem : r ∈ classifierScores text := by
    rw [hsr, heq]
    exact List.mem_append_right _ (List.mem_cons_self _ _)
  have hnd : ((classifierScores text).map Prod.fst).Nodup := by
    have hkeys : (classifierScores text).map Prod.fst
        = ["contract", "license", "lease", "employment", "nda"] := rfl
    rw [hkeys]; decide
  have hlook : List.lookup r.1 (classifierScores text) = some r.2 :=
    lookup_nodup _ _ _ hnd (by simpa using hmem)
  have hconf : (classify_document_type text).confidence = r.2 := by
    rw [hconf_def, hpy, hlook]; rfl
  constructor
  · intro p hp
    rw [hall] at hp
    simp only [classifierScores, List.mem_map] at hp
    obtain ⟨ti, hti, rfl⟩ := hp
    have hlen : 0 < ti.2.length := by
      have hall_len : ∀ u ∈ doc_indicators, 0 < u.2.length := by decide
      exact hall_len ti hti
    constructor
    · show (0:ℚ) ≤ (ti.2.countP (fun ind => containsSub (strLower text) ind) : ℚ) / (ti.2.length : ℚ)
      exact div_nonneg (Nat.cast_nonneg _) (Nat.cast_nonneg _)
    · show ((ti.2.countP (fun ind => containsSub (strLower text) ind) : ℚ) / (ti.2.length : ℚ)) ≤ 1
      rw [div_le_one (by exact_mod_cast hlen)]
      exact_mod_cast List.countP_le_length _
  · refine ⟨l₁, l₂, ?_, ?_, ?_⟩
    · rw [hall, hdt, hconf, hpy, hsr, heq]
    · intro p hp
      rw [hconf]
      exact hlt p hp
    · intro p hp
      rw [hconf]
      rw [hall, hsr, heq] at hp
      refine hle p ?_
      rw [heq]
      exact hp

/-! ## Entity extraction (`extract_legal_entities`, lines 102-122) -/

/-- One typed span from the NER collaborator: `(ent.label_, ent.text)`. -/
abbrev Span := String × String

/-- The dict built by `extract_legal_entities`, one list per recognized
category plus the synthesized `monetary_amounts` key. -/
structure EntitySet where
  person : List String
  org : List String
  date : List String
  money : List String
  gpe : List String
  monetary_amounts : List String
  deriving Repr, DecidableEq

/-- `entities[ent.label_].append(ent.text)` for the five recognized keys;
spans with any other label are dropped silently. -/
def insertSpan (es : EntitySet) (ent : Span) : EntitySet :=
  if ent.1 = "PERSON" then { es with person := es.person ++ [ent.2] }
  else if ent.1 = "ORG" then { es with org := es.org ++ [ent.2] }
  else if ent.1 = "DATE" then { es with date := es.date ++ [ent.2] }
  else if ent.1 = "MONEY" then { es with money := es.money ++ [ent.2] }
  else if ent.1 = "GPE" then { es with gpe := es.gpe ++ [ent.2] }
  else es

/-- Is `c` matched by the character class `[\d,]`? -/
def moneyChar (c : Char) : Bool := c.isDigit || c = ','

/-- Left-to-right, non-overlapping scan of
`re.findall(r'\$[\d,]+(?:\.\d{2})?', text)`: at a `$` the greedy `[\d,]+`
takes a maximal non-empty run, then the optional cents group is tried at
the position after the run; on a failed match the scan resumes one
position further right.  The fuel argument (always instantiated with the
list length, which bounds the recursion depth) only makes the recursion
structural so that concrete inputs evaluate by `decide`. -/
def findMoneyAux : ℕ → List Char → List String
  | 0, _ => []
  | _ + 1, [] => []
  | fuel + 1, c :: rest =>
    if c = '$' then
      match rest.takeWhile moneyChar, rest.dropWhile moneyChar with
      | [], _ => findMoneyAux fuel rest
      | run, '.' :: d1 :: d2 :: tail =>
        if d1.isDigit && d2.isDigit then
          String.mk ('$' :: (run ++ ['.', d1, d2])) :: findMoneyAux fuel tail
        else
          String.mk ('$' :: run) :: findMoneyAux fuel ('.' :: d1 :: d2 :: tail)
      | run, rest' => String.mk ('$' :: run) :: findMoneyAux fuel rest'
    else
      findMoneyAux fuel rest

/-- The custom monetary-amount pass of `extract_legal_entities`. -/
def findMoney (l : List Char) : List String := findMoneyAux l.length l

/-- The pure core of `extract_legal_entities` applied to the NER
collaborator's spans: fold the spans into the five category lists in
order, then attach the regex monetary pass under `monetary_amounts`. -/
def extract_entities_core (ents : List Span) (text : String) : EntitySet :=
  let entities := ents.foldl insertSpan ⟨[], [], [], [], [], []⟩
  { entities with monetary_amounts := findMoney text.data }

/-- `extract_legal_entities` with the `self.nlp(text)` call as a fallible
collaborator. -/
def extract_legal_entities (nlp : String → Except String (List Span)) (text : String) :
    Except String EntitySet :=
  match nlp text with
  | .error e => .error e
  | .ok ents => .ok (extract_entities_core ents text)

theorem insertSpan_person (es : EntitySet) (e : Span) :
    (insertSpan es e).person = es.person ++ (if e.1 == "PERSON" then [e.2] else []) := by
  unfold insertSpan
  split_ifs <;> simp_all

theorem insertSpan_org (es : EntitySet) (e : Span) :
    (insertSpan es e).org = es.org ++ (if e.1 == "ORG" then [e.2] else []) := by
  unfold insertSpan
  split_ifs <;> simp_all

theorem insertSpan_date (es : EntitySet) (e : Span) :
    (insertSpan es e).date = es.date ++ (if e.1 == "DATE" then [e.2] else []) := by
  unfold insertSpan
  split_ifs <;> simp_all

theorem insertSpan_money (es : EntitySet) (e : Span) :
    (insertSpan es e).money = es.money ++ (if e.1 == "MONEY" then [e.2] else []) := by
  unfold insertSpan
  split_ifs <;> simp_all

theorem insertSpan_gpe (es : EntitySet) (e : Span) :
    (insertSpan es e).gpe = es.gpe ++ (if e.1 == "GPE" then [e.2] else []) := by
  unfold insertSpan
  split_ifs <;> simp_all

theorem insertSpan_monetary (es : EntitySet) (e : Span) :
    (insertSpan es e).monetary_amounts = es.monetary_amounts := by
  unfold insertSpan
  split_ifs <;> simp_all

theorem foldl_insertSpan_person (ents : List Span) (acc : EntitySet) :
    (ents.foldl insertSpan acc).person
      = acc.person ++ (ents.filter (fun e => e.1 == "PERSON")).map Prod.snd := by
  induction ents generalizing acc with
  | nil => simp
  | cons e t ih =>
    rw [List.foldl_cons, ih, insertSpan_person, List.filter_cons]
    cases h : (e.1 == "PERSON") <;> simp [h]

theorem foldl_insertSpan_org (ents : List Span) (acc : EntitySet) :
    (ents.foldl insertSpan acc).org
      = acc.org ++ (ents.filter (fun e => e.1 == "ORG")).map Prod.snd := by
  induction ents generalizing acc with
  | nil => simp
  | cons e t ih =>
    rw [List.foldl_cons, ih, insertSpan_org, List.filter_cons]
    cases h : (e.1 == "ORG") <;> simp [h]

theorem foldl_insertSpan_date (ents : List Span) (acc : EntitySet) :
    (ents.foldl insertSpan acc).date
      = acc.date ++ (ents.filter (fun e => e.1 == "DATE")).map Prod.snd := by
  induction ents generalizing acc with
  | nil => simp
  | cons e t ih =>
    rw [List.foldl_cons, ih, insertSpan_date, List.filter_cons]
    cases h : (e.1 == "DATE") <;> simp [h]

theorem foldl_insertSpan_money (ents : List Span) (acc : EntitySet) :
    (ents.foldl insertSpan acc).money
      = acc.money ++ (ents.filter (fun e => e.1 == "MONEY")).map Prod.snd := by
  induction ents generalizing acc with
  | nil => simp
  | cons e t ih =>
    rw [List.foldl_cons, ih, insertSpan_money, List.filter_cons]
    cases h : (e.1 == "MONEY") <;> simp [h]

theorem foldl_insertSpan_gpe (ents : List Span) (acc : EntitySet) :
    (ents.foldl insertSpan acc).gpe
      = acc.gpe ++ (ents.filter (fun e => e.1 == "GPE")).map Prod.snd := by
  induction ents generalizing acc with
  | nil => simp
  | cons e t ih =>
    rw [List.foldl_cons, ih, insertSpan_gpe, List.filter_cons]
    cases h : (e.1 == "GPE") <;> simp [h]

/-- C4 (counterexample): a NER collaborator output repeating the same
(PERSON, "John Smith") span makes `extract_legal_entities` store the span
twice in the PERSON category — the extractor performs no deduplication,
contradicting the claim that each category holds pairwise-distinct spans. -/
theorem extract_entities_person_duplicate_kept :
    (extract_entities_core [("PERSON", "John Smith"), ("PERSON", "John Smith")] "x").person
      = ["John Smith", "John Smith"]
    ∧ ¬ List.Nodup
        ((extract_entities_core [("PERSON", "John Smith"), ("PERSON", "John Smith")] "x").person) := by
  exact ⟨by decide, by decide⟩

/-- C4 (amended): for every input text and every NER collaborator output,
each entity category of the extractor's result holds exactly the
collaborator's spans of that label, in first-occurrence order, with
duplicates preserved (no deduplication); `monetary_amounts` is exactly the
regex pass over the text. -/
theorem entity_categories_preserve_collaborator_spans (ents : List Span) (text : String) :
    (extract_entities_core ents text).person
        = (ents.filter (fun e => e.1 == "PERSON")).map Prod.snd
    ∧ (extract_entities_core ents text).org
        = (ents.filter (fun e => e.1 == "ORG")).map Prod.snd
    ∧ (extract_entities_core ents text).date
        = (ents.filter (fun e => e.1 == "DATE")).map Prod.snd
    ∧ (extract_entities_core ents text).money
        = (ents.filter (fun e => e.1 == "MONEY")).map Prod.snd
    ∧ (extract_entities_core ents text).gpe
        = (ents.filter (fun e => e.1 == "GPE")).map Prod.snd
    ∧ (extract_entities_core ents text).monetary_amounts = findMoney text.data := by
  refine ⟨?_, ?_, ?_, ?_, ?_, rfl⟩
  · show (ents.foldl insertSpan ⟨[], [], [], [], [], []⟩).person = _
    rw [foldl_insertSpan_person]
    simp
  · show (ents.foldl insertSpan ⟨[], [], [], [], [], []⟩).org = _
    rw [foldl_insertSpan_org]
    simp
  · show (ents.foldl insertSpan ⟨[], [], [], [], [], []⟩).date = _
    rw [foldl_insertSpan_date]
    simp
  · show (ents.foldl insertSpan ⟨[], [], [], [], [], []⟩).money = _
    rw [foldl_insertSpan_money]
    simp
  · show (ents.foldl insertSpan ⟨[], [], [], [], [], []⟩).gpe = _
    rw [foldl_insertSpan_gpe]
    simp

/-- C5: on the scenario text both `$1,500` occurrences are captured by the
monetary pass, duplicates preserved, in source order, for every NER
collaborator output. -/
theorem monetary_amounts_scenario_both_occurrences (ents : List Span) :
    (extract_entities_core ents "$1,500 per month... Security Deposit: $1,500").monetary_amounts
      = ["$1,500", "$1,500"] := by
  show findMoney (String.data "$1,500 per month... Security Deposit: $1,500")
      = ["$1,500", "$1,500"]
  decide

/-! ## Clause extraction (`extract_key_clauses`, lines 124-162) -/

/-- An extracted clause value: `{'text': ..., 'confidence': ...}`. -/
structure Clause where
  text : String
  confidence : ℚ
  deriving Repr, DecidableEq

/-- The three fixed question sets of `extract_key_clauses`, selected by
predicted document type with a generic fallback. -/
def selectQuestions (document_type : String) : List String :=
  if document_type = "contract" then
    ["What is the effective date?",
     "Who are the parties?",
     "What are the payment terms?",
     "What is the governing law?"]
  else if document_type = "employment" then
    ["What is the salary?",
     "What is the job title?",
     "When does employment start?",
     "What are the benefits?"]
  else
    ["What are the main terms?",
     "Who are the parties involved?",
     "What are the key obligations?"]

/-- Python `str.replace`: replace every occurrence of `pat` in the list.
The fuel argument (instantiated with the list length, an upper bound on
the steps for the non-empty patterns this file uses) makes the recursion
structural so concrete inputs evaluate by `decide`. -/
def replaceAllAux (pat repl : List Char) : ℕ → List Char → List Char
  | 0, s => s
  | _ + 1, [] => []
  | fuel + 1, c :: rest =>
    if pat.isPrefixOf (c :: rest) then
      repl ++ replaceAllAux pat repl fuel ((c :: rest).drop pat.length)
    else
      c :: replaceAllAux pat repl fuel rest

/-- Python `s.replace(pat, repl)` on strings. -/
def pyReplace (s pat repl : String) : String :=
  String.mk (replaceAllAux pat.data repl.data s.data.length s.data)

/-- The clause key derived from a question:
`question.replace("What is ", "").replace("What are ", "").replace("?", "")`. -/
def clauseKey (question : String) : String :=
  pyReplace (pyReplace (pyReplace question "What is " "") "What are " "") "?" ""

/-- Python dict assignment `d[k] = v` on an insertion-ordered association
list: overwrite in place if the key exists, else append. -/
def dictInsert {β : Type} (m : List (String × β)) (k : String) (v : β) : List (String × β) :=
  match m with
  | [] => [(k, v)]
  | (k', v') :: t => if k' = k then (k, v) :: t else (k', v') :: dictInsert t k v

/-- Per-question body of the loop in `extract_key_clauses`: the QA
collaborator call sits in a try/except, so a failure only logs a warning
and leaves the accumulated dict unchanged; a successful answer is stored
under the derived clause key only when its score exceeds 0.1. -/
def clauseStep (qa : String → String → Except String (String × ℚ)) (text : String)
    (acc : List (String × Clause)) (question : String) : List (String × Clause) :=
  match qa question text with
  | .error _ => acc
  | .ok (answer, score) =>
    if score > mkRat 1 10 then dictInsert acc (clauseKey question) ⟨answer, score⟩
    else acc

/-- `extract_key_clauses` with the `self.qa_pipeline` call as a fallible
collaborator. -/
def extract_key_clauses (qa : String → String → Except String (String × ℚ))
    (text : String) (document_type : String) : List (String × Clause) :=
  (selectQuestions document_type).foldl (clauseStep qa text) []

theorem mem_dictInsert {β : Type} (m : List (String × β)) (k : String) (v : β) (p : String × β)
    (hp : p ∈ dictInsert m k v) : p = (k, v) ∨ p ∈ m := by
  induction m with
  | nil => simpa [dictInsert] using hp
  | cons q t ih =>
    obtain ⟨k', v'⟩ := q
    unfold dictInsert at hp
    by_cases h : k' = k
    · rw [if_pos h] at hp
      rcases List.mem_cons.mp hp with h' | h'
      · exact Or.inl h'
      · exact Or.inr (List.mem_cons_of_mem _ h')
    · rw [if_neg h] at hp
      rcases List.mem_cons.mp hp with h' | h'
      · exact Or.inr (h' ▸ List.mem_cons_self _ _)
      · rcases ih h' with h'' | h''
        · exact Or.inl h''
        · exact Or.inr (List.mem_cons_of_mem _ h'')

theorem lookup_dictInsert_self {β : Type} (m : List (String × β)) (k : String) (v : β) :
    List.lookup k (dictInsert m k v) = some v := by
  induction m with
  | nil => simp [dictInsert, List.lookup]
  | cons q t ih =>
    obtain ⟨k', v'⟩ := q
    unfold dictInsert
    by_cases h : k' = k
    · rw [if_pos h]
      simp [List.lookup]
    · rw [if_neg h]
      have hk : (k == k') = false := beq_eq_false_iff_ne.mpr (fun he => h he.symm)
      simpa [List.lookup, hk] using ih

theorem lookup_dictInsert_ne {β : Type} (m : List (String × β)) (k k' : String) (v : β)
    (hne : k ≠ k') : List.lookup k (dictInsert m k' v) = List.lookup k m := by
  induction m with
  | nil => simp [dictInsert, List.lookup, beq_eq_false_iff_ne.mpr hne]
  | cons q t ih =>
    obtain ⟨a, b⟩ := q
    unfold dictInsert
    by_cases h : a = k'
    · rw [if_pos h]
      have h1 : (k == k') = false := beq_eq_false_iff_ne.mpr hne
      have h2 : (k == a) = false := beq_eq_false_iff_ne.mpr (h ▸ hne)
      simp [List.lookup, h1, h2]
    · rw [if_neg h]
      cases hka : (k == a) with
      | true => simp [List.lookup, hka]
      | false => simpa [List.lookup, hka] using ih

/-- Questions whose derived keys all differ from `k` cannot disturb the
entry stored under `k`. -/
theorem foldl_clauseStep_preserve (qa : String → String → Except String (String × ℚ))
    (text : String) (qs : List String) (acc : List (String × Clause)) (k : String)
    (hk : ∀ q ∈ qs, clauseKey q ≠ k) :
    List.lookup k (qs.foldl (clauseStep qa text) acc) = List.lookup k acc := by
  induction qs generalizing acc with
  | nil => rfl
  | cons q t ih =>
    rw [List.foldl_cons]
    rw [ih _ (fun u hu => hk u (List.mem_cons_of_mem q hu))]
    cases hq : qa q text with
    | error e => simp [clauseStep, hq]
    | ok r =>
      obtain ⟨a, s⟩ := r
      by_cases hs : s > mkRat 1 10
      · simp only [clauseStep, hq]
        rw [if_pos hs]
        exact lookup_dictInsert_ne _ _ _ _ (fun he => hk q (List.mem_cons_self q t) he.symm)
      · simp only [clauseStep, hq]
        rw [if_neg hs]

/-- Within each of the three fixed question sets, derived clause keys are
pairwise distinct. -/
theorem selectQuestions_keys_nodup (document_type : String) :
    ((selectQuestions document_type).map clauseKey).Nodup := by
  unfold selectQuestions
  split_ifs <;> decide

/-- A question answered successfully above the floor ends up stored under
its derived key, no matter what the collaborator does on the other
questions of the fold. -/
theorem foldl_clauseStep_found (qa : String → String → Except String (String × ℚ))
    (text : String) (qs : List String) (acc : List (String × Clause))
    (q a : String) (s : ℚ)
    (hok : qa q text = .ok (a, s)) (hs : s > mkRat 1 10)
    (hmem : q ∈ qs) (hnd : (qs.map clauseKey).Nodup) :
    List.lookup (clauseKey q) (qs.foldl (clauseStep qa text) acc) = some ⟨a, s⟩ := by
  revert hmem hnd
  induction qs generalizing acc with
  | nil =>
    intro hmem _
    cases hmem
  | cons q' t ih =>
    intro hmem hnd
    rw [List.map_cons, List.nodup_cons] at hnd
    rw [List.foldl_cons]
    by_cases hqq : q' = q
    · subst hqq
      have hpres : ∀ u ∈ t, clauseKey u ≠ clauseKey q' := by
        intro u hu he
        exact hnd.1 (he ▸ List.mem_map.mpr ⟨u, hu, rfl⟩)
      rw [foldl_clauseStep_preserve qa text t _ _ hpres]
      simp only [clauseStep, hok]
      rw [if_pos hs]
      exact lookup_dictInsert_self _ _ _
    · have hmem' : q ∈ t := by
        rcases List.mem_cons.mp hmem with h | h
        · exact absurd h.symm hqq
        · exact h
      exact ih _ hmem' hnd.2

/-- C6: within one clause-extraction call, a collaborator failure on some
questions only loses those questions' clauses — any question the
collaborator answers successfully above the confidence floor has its
clause present in the returned map (stored under its derived key), for
every input text, document type, and collaborator behaviour on the other
questions. -/
theorem clause_failure_isolation (qa : String → String → Except String (String × ℚ))
    (text document_type q a : String) (s : ℚ)
    (hmem : q ∈ selectQuestions document_type)
    (hok : qa q text = .ok (a, s)) (hs : s > mkRat 1 10) :
    List.lookup (clauseKey q) (extract_key_clauses qa text document_type) = some ⟨a, s⟩ :=
  foldl_clauseStep_found qa text _ [] q a s hok hs hmem
    (selectQuestions_keys_nodup document_type)

/-- Witness for C6: with a collaborator that fails on every contract
question except the first, the first question's clause is still present. -/
theorem clause_failure_isolation_witness :
    List.lookup (clauseKey "What is the effective date?")
      (extract_key_clauses
        (fun q' _ => if q' = "What is the effective date?"
          then Except.ok ("January 1, 2024", mkRat 9 10) else Except.error "ConnectionError")
        "t" "contract")
      = some ⟨"January 1, 2024", mkRat 9 10⟩ :=
  clause_failure_isolation
    (fun q' _ => if q' = "What is the effective date?"
      then Except.ok ("January 1, 2024", mkRat 9 10) else Except.error "ConnectionError")
    "t" "contract" "What is the effective date?" "January 1, 2024" (mkRat 9 10)
    (by decide) rfl (by decide)

/-- Every entry ever stored by the clause fold has confidence above the
floor. -/
theorem foldl_clauseStep_conf (qa : String → String → Except String (String × ℚ))
    (text : String) (qs : List String) (acc : List (String × Clause))
    (hacc : ∀ p ∈ acc, mkRat 1 10 < p.2.confidence) :
    ∀ p ∈ qs.foldl (clauseStep qa text) acc, mkRat 1 10 < p.2.confidence := by
  revert hacc
  induction qs generalizing acc with
  | nil =>
    intro hacc
    simpa using hacc
  | cons q t ih =>
    intro hacc
    rw [List.foldl_cons]
    refine ih _ ?_
    cases hq : qa q text with
    | error e => simpa [clauseStep, hq] using hacc
    | ok r =>
      obtain ⟨a, s⟩ := r
      by_cases hs : s > mkRat 1 10
      · simp only [clauseStep, hq]
        rw [if_pos hs]
        intro p hp
        rcases mem_dictInsert _ _ _ _ hp with h | h
        · rw [h]
          exact hs
        · exact hacc p h
      · simp only [clauseStep, hq]
        rw [if_neg hs]
        exact hacc

/-- C8: the clause extractor never retains an answer whose confidence is
≤ 0.1 — every clause in the returned map has confidence strictly greater
than 0.1, for every text, document type, and collaborator behaviour. -/
theorem clause_confidence_above_floor (qa : String → String → Except String (String × ℚ))
    (text document_type : String) (p : String × Clause)
    (hp : p ∈ extract_key_clauses qa text document_type) :
    mkRat 1 10 < p.2.confidence :=
  foldl_clauseStep_conf qa text _ [] (by simp) p hp

/-- Witness for C8: a collaborator answering every question with
confidence 1/2 yields a stored clause, whose confidence clears the
floor. -/
theorem clause_confidence_above_floor_witness :
    (clauseKey "What is the effective date?", (⟨"ans", mkRat 1 2⟩ : Clause))
        ∈ extract_key_clauses (fun _ _ => Except.ok ("ans", mkRat 1 2)) "t" "contract"
    ∧ mkRat 1 10 < ((⟨"ans", mkRat 1 2⟩ : Clause)).confidence :=
  ⟨by decide,
   clause_confidence_above_floor (fun _ _ => Except.ok ("ans", mkRat 1 2)) "t" "contract"
     (clauseKey "What is the effective date?", (⟨"ans", mkRat 1 2⟩ : Clause)) (by decide)⟩

/-! ## The analysis pipeline (`analyze_document`, lines 189-230) -/

/-- Python's ASCII whitespace characters, for `\s`, `str.strip` and
`str.split`. -/
def pyWs (c : Char) : Bool :=
  c = ' ' || c = '\t' || c = '\n' || c = '\r' || c = '\x0b' || c = '\x0c'

/-- Python `str.strip()`: drop leading and trailing whitespace. -/
def pyStrip (l : List Char) : List Char :=
  ((l.dropWhile pyWs).reverse.dropWhile pyWs).reverse

/-- `re.sub(r'\s+', ' ', l)`: collapse every maximal whitespace run to a
single space.  The Boolean flag records whether the previous character
belonged to a run already collapsed. -/
def collapseWsAux : Bool → List Char → List Char
  | _, [] => []
  | inWs, c :: rest =>
    if pyWs c then
      if inWs then collapseWsAux true rest else ' ' :: collapseWsAux true rest
    else c :: collapseWsAux false rest

/-- `preprocess_text` (lines 69-74): strip, then collapse whitespace runs
to single spaces (the later `\n+` and `\t+` passes are no-ops once the
first substitution has run). -/
def preprocess_text (text : String) : String :=
  String.mk (collapseWsAux false (pyStrip text.data))

/-- `len(text.split())`: the number of maximal non-whitespace runs. -/
def countWordsAux : Bool → List Char → ℕ
  | _, [] => 0
  | inWord, c :: rest =>
    if pyWs c then countWordsAux false rest
    else (if inWord then 0 else 1) + countWordsAux true rest

def pyWordCount (s : String) : ℕ := countWordsAux false s.data

/-- The `document_info` part of the result dict; `processed_at` is the
caller-supplied stand-in for `datetime.now().isoformat()`. -/
structure DocumentInfo where
  type : String
  confidence : ℚ
  length : ℕ
  processed_at : String
  deriving Repr, DecidableEq

/-- The result dict assembled by `analyze_document`. -/
structure AnalysisResult where
  document_info : DocumentInfo
  entities : EntitySet
  key_clauses : List (String × Clause)
  summary : String
  classification_scores : List (String × ℚ)
  deriving Repr, DecidableEq

/-- The processor's external inference collaborators: the SpaCy NER
(`self.nlp`), the QA pipeline (`self.qa_pipeline`) and the T5 summarizer
(tokenizer truncation to 512 tokens included in its behaviour). -/
structure Collaborators where
  nlp : String → Except String (List Span)
  qa : String → String → Except String (String × ℚ)
  t5 : String → Except String String

/-- `generate_summary` (lines 164-187): one fallible summarizer call on
the text. -/
def generate_summary (t5 : String → Except String String) (text : String) :
    Except String String :=
  t5 text

/-- Did the computation succeed? -/
def isOkE {ε α : Type} : Except ε α → Bool
  | .ok _ => true
  | .error _ => false

/-- `analyze_document` (lines 189-230): preprocess, classify, extract
entities (a NER failure propagates), extract clauses (internally caught,
never fatal), summarize (a failure propagates), assemble the result.  No
stage output is returned unless every required stage succeeded. -/
def analyze_document (C : Collaborators) (now : String) (text : String) :
    Except String AnalysisResult :=
  let processed_text := preprocess_text text
  let doc_classification := classify_document_type processed_text
  match extract_legal_entities C.nlp processed_text with
  | .error e => .error e
  | .ok entities =>
    let clauses := extract_key_clauses C.qa processed_text doc_classification.document_type
    match generate_summary C.t5 processed_text with
    | .error e => .error e
    | .ok summary =>
      .ok {
        document_info := {
          type := doc_classification.document_type
          confidence := doc_classification.confidence
          length := pyWordCount text
          processed_at := now }
        entities := entities
        key_clauses := clauses
        summary := summary
        classification_scores := doc_classification.all_scores }

/-- C3: `analyze_document` succeeds exactly when both required stages —
the entity-extraction and summarization collaborator calls — succeed; a
failing summarizer therefore fails the whole call (and, the result being
an `Except`, no partial `AnalysisResult` reaches the caller), while the QA
collaborator's behaviour — per-question clause failures included — never
affects whether the call fails. -/
theorem analyze_document_fails_iff_required_stage_fails (C : Collaborators)
    (now text : String) :
    isOkE (analyze_document C now text)
      = (isOkE (C.nlp (preprocess_text text)) && isOkE (C.t5 (preprocess_text text))) := by
  unfold analyze_document extract_legal_entities generate_summary
  cases hn : C.nlp (preprocess_text text) <;>
    cases ht : C.t5 (preprocess_text text) <;>
      simp [isOkE, hn, ht]

/-! ## Asynchronous job tracking and the API surface (`simple_api.py`) -/

/-- The status strings written into `processing_status`. -/
inductive JobStatus
  | starting
  | extracting_text
  | analyzing
  | completed
  | error
  deriving Repr, DecidableEq

/-- Position in the fixed progression
STARTING < EXTRACTING_TEXT < ANALYZING < {COMPLETED, ERROR}. -/
def stRank : JobStatus → ℕ
  | .starting => 0
  | .extracting_text => 1
  | .analyzing => 2
  | .completed => 3
  | .error => 3

def isTerminal : JobStatus → Bool
  | .completed => true
  | .error => true
  | _ => false

/-- One value assigned to `processing_status[task_id]`; each write replaces
the whole dict, so absent keys are `none`. -/
structure JobEntry where
  status : JobStatus
  progress : Option ℕ
  results : Option AnalysisResult
  error : Option String
  deriving Repr, DecidableEq

/-- `{"status": "starting", "progress": 0}` (line 139). -/
def startingEntry : JobEntry := ⟨.starting, some 0, none, none⟩

/-- `{"status": "extracting_text", "progress": 10}` (line 98). -/
def extractingEntry : JobEntry := ⟨.extracting_text, some 10, none, none⟩

/-- `{"status": "analyzing", "progress": 50}` (line 110). -/
def analyzingEntry : JobEntry := ⟨.analyzing, some 50, none, none⟩

/-- `{"status": "completed", "progress": 100, "results": ...}` (lines 116-120). -/
def completedEntry (r : AnalysisResult) : JobEntry := ⟨.completed, some 100, some r, none⟩

/-- `{"status": "error", "error": ...}` (lines 106, 124). -/
def errorEntry (e : String) : JobEntry := ⟨.error, none, none, some e⟩

/-- The sequence of writes `process_pdf_background` (lines 95-124) performs
on its job entry, given the PDF text-extraction collaborator's outcome on
the uploaded bytes: the extracting-text write; then an error write if
extraction raised or returned only whitespace; otherwise the analyzing
write followed by a completed or error write according to
`analyze_document`'s outcome (the surrounding `except` clause turns any
raise into the single error write). -/
def process_pdf_background (extract : Except String String) (C : Collaborators)
    (now : String) : List JobEntry :=
  extractingEntry ::
    match extract with
    | .error e => [errorEntry e]
    | .ok text =>
      if (pyStrip text.data).isEmpty then
        [errorEntry "Could not extract text from PDF"]
      else
        analyzingEntry ::
          match analyze_document C now text with
          | .ok results => [completedEntry results]
          | .error e => [errorEntry e]

/-- All writes a submitted job's entry receives, in order: the STARTING
registration in `analyze_pdf_document` (line 139) followed by the
background task's writes. -/
def jobWrites (extract : Except String String) (C : Collaborators) (now : String) :
    List JobEntry :=
  startingEntry :: process_pdf_background extract C now

/-- C2: for every collaborator behaviour, the writes a job entry receives
are strictly increasing in the fixed state order (so states only move
forward and are never repeated), no write before the final one is
terminal (a COMPLETED or ERROR entry is never overwritten), and every
write carries the progress/result/error fields its state promises. -/
theorem job_writes_strictly_forward_and_terminal_final
    (extract : Except String String) (C : Collaborators) (now : String) :
    List.Chain' (fun a b => stRank a.status < stRank b.status) (jobWrites extract C now)
    ∧ (∀ e ∈ (jobWrites extract C now).dropLast, isTerminal e.status = false)
    ∧ (∀ e ∈ jobWrites extract C now,
        (e.status = .starting → e.progress = some 0)
        ∧ (e.status = .extracting_text → e.progress = some 10)
        ∧ (e.status = .analyzing → e.progress = some 50)
        ∧ (e.status = .completed → e.progress = some 100 ∧ e.results.isSome = true)
        ∧ (e.status = .error → e.error.isSome = true)) := by
  unfold jobWrites process_pdf_background
  cases extract with
  | error e =>
    refine ⟨?_, ?_, ?_⟩ <;>
      simp [startingEntry, extractingEntry, errorEntry, stRank, isTerminal]
  | ok text =>
    dsimp only
    by_cases hempty : (pyStrip text.data).isEmpty
    · rw [if_pos hempty]
      refine ⟨?_, ?_, ?_⟩ <;>
        simp [startingEntry, extractingEntry, errorEntry, stRank, isTerminal]
    · rw [if_neg hempty]
      cases analyze_document C now text with
      | ok r =>
        refine ⟨?_, ?_, ?_⟩ <;>
          simp [startingEntry, extractingEntry, analyzingEntry, completedEntry,
            stRank, isTerminal]
      | error e =>
        refine ⟨?_, ?_, ?_⟩ <;>
          simp [startingEntry, extractingEntry, analyzingEntry, errorEntry,
            stRank, isTerminal]

/-- A degenerate collaborator assignment used to instantiate concrete
scenarios. -/
def trivialCollaborators : Collaborators :=
  ⟨fun _ => .ok [], fun _ _ => .error "unavailable", fun _ => .ok ""⟩

theorem dropWhile_eq_nil_of_all {α : Type} (p : α → Bool) (l : List α)
    (h : ∀ c ∈ l, p c = true) : l.dropWhile p = [] := by
  induction l with
  | nil => rfl
  | cons c t ih =>
    rw [List.dropWhile_cons, if_pos (h c (List.mem_cons_self c t))]
    exact ih (fun u hu => h u (List.mem_cons_of_mem c hu))

theorem pyStrip_eq_nil_of_all_ws (l : List Char) (h : ∀ c ∈ l, pyWs c = true) :
    pyStrip l = [] := by
  unfold pyStrip
  rw [dropWhile_eq_nil_of_all _ _ h]
  rfl

/-- C7: when the extraction collaborator returns an empty or
whitespace-only string, the job's write sequence is exactly STARTING,
EXTRACTING_TEXT, then ERROR carrying the message "Could not extract text
from PDF" — the job never reaches ANALYZING, and the writes are the same
for every processor collaborator behaviour (the analysis pipeline is never
invoked). -/
theorem empty_extraction_reaches_error_never_analyzing
    (text : String) (C : Collaborators) (now : String)
    (hws : ∀ c ∈ text.data, pyWs c = true) :
    jobWrites (.ok text) C now
      = [startingEntry, extractingEntry, errorEntry "Could not extract text from PDF"]
    ∧ (∀ e ∈ jobWrites (.ok text) C now, e.status ≠ .analyzing) := by
  have hnil : pyStrip text.data = [] := pyStrip_eq_nil_of_all_ws _ hws
  have htrace : jobWrites (.ok text) C now
      = [startingEntry, extractingEntry, errorEntry "Could not extract text from PDF"] := by
    unfold jobWrites process_pdf_background
    dsimp only
    rw [hnil]
    rfl
  refine ⟨htrace, ?_⟩
  rw [htrace]
  intro e he
  simp only [List.mem_cons, List.not_mem_nil, or_false] at he
  rcases he with rfl | rfl | rfl <;> decide

/-- Witness for C7 at the whitespace-only extraction result `"  \n"`. -/
theorem empty_extraction_reaches_error_never_analyzing_witness :
    jobWrites (.ok "  \n") trivialCollaborators "now"
      = [startingEntry, extractingEntry, errorEntry "Could not extract text from PDF"]
    ∧ (∀ e ∈ jobWrites (.ok "  \n") trivialCollaborators "now", e.status ≠ .analyzing) :=
  empty_extraction_reaches_error_never_analyzing "  \n" trivialCollaborators "now" (by decide)

/-- A response of the HTTP layer: a JSON payload or an `HTTPException`
carrying a status code and a detail string. -/
inductive ApiResponse
  | ok (payload : AnalysisResult)
  | httpError (status : ℕ) (detail : String)
  deriving Repr, DecidableEq

/-- `str(e)` of a starlette `HTTPException`: `"<status_code>: <detail>"`. -/
def httpExcStr (code : ℕ) (detail : String) : String :=
  toString code ++ ": " ++ detail

/-- The `/analyze` endpoint (`analyze_document`, `simple_api.py` lines
81-93).  Its whole body sits in a `try/except Exception` block, and
starlette's `HTTPException` subclasses `Exception`: the
`HTTPException(400)` raised for empty text at line 86 is caught at line 91
and re-raised as status 500 with detail `str(e)`, exactly like a processor
failure. -/
def analyze_endpoint (C : Collaborators) (now : String) (text : String) : ApiResponse :=
  if text = "" then
    .httpError 500 (httpExcStr 400 "No document content provided")
  else
    match analyze_document C now text with
    | .ok results => .ok results
    | .error e => .httpError 500 e

/-- C9 (evaluation at the failing input): an empty-text submission is
answered with HTTP status 500 — the blanket `except Exception` swallows
the validation `HTTPException(400)` and re-raises it as an internal error,
so the caller cannot tell the validation failure from an internal one by
status — although the analysis pipeline is indeed never invoked: the
response does not depend on the collaborators at all. -/
theorem empty_text_submission_returns_500 (C C' : Collaborators) (now now' : String) :
    analyze_endpoint C now ""
      = .httpError 500 (httpExcStr 400 "No document content provided")
    ∧ analyze_endpoint C now "" = analyze_endpoint C' now' "" :=
  ⟨rfl, rfl⟩

/-- Response of `/analyze-pdf`: the issued task id or an error. -/
inductive PdfSubmitResponse
  | accepted (task_id : String)
  | httpError (status : ℕ) (detail : String)
  deriving Repr, DecidableEq

/-- `file.filename.lower().endswith('.pdf')`. -/
def endswithPdf (filename : String) : Bool :=
  ".pdf".data.isSuffixOf (strLower filename).data

/-- The `/analyze-pdf` endpoint (`analyze_pdf_document`, lines 126-151)
acting on the job store.  A filename not ending in `.pdf` raises before
the task id is generated at line 136 and before the STARTING entry is
inserted at line 139; the blanket handler converts the raise to a 500
response and touches no state.  Otherwise the fresh id (the UUID, supplied
here as a parameter) is registered STARTING and the submission is
accepted; the background task's later writes are `process_pdf_background`. -/
def analyze_pdf_endpoint (store : List (String × JobEntry)) (filename : String)
    (freshId : String) : PdfSubmitResponse × List (String × JobEntry) :=
  if endswithPdf filename then
    (.accepted freshId, dictInsert store freshId startingEntry)
  else
    (.httpError 500 (httpExcStr 400 "File must be a PDF"), store)

/-- The `/status/{task_id}` endpoint (`get_processing_status`, lines
153-166): an unknown id yields 404, otherwise the stored snapshot (the
cleanup branch is a `pass` and changes nothing). -/
def get_processing_status (store : List (String × JobEntry)) (task_id : String) :
    Except (ℕ × String) JobEntry :=
  match List.lookup task_id store with
  | none => .error (404, "Task not found")
  | some st => .ok st

/-- C10: a submission whose filename does not end in `.pdf`
(case-insensitively) is rejected with an error response carrying no task
id, leaves the job store exactly as it was, and changes the answer of no
status query — no job ever becomes queryable for it. -/
theorem non_pdf_rejected_without_job (store : List (String × JobEntry))
    (filename freshId : String) (h : endswithPdf filename = false) :
    (analyze_pdf_endpoint store filename freshId).2 = store
    ∧ (analyze_pdf_endpoint store filename freshId).1
        = .httpError 500 (httpExcStr 400 "File must be a PDF")
    ∧ (∀ tid, get_processing_status (analyze_pdf_endpoint store filename freshId).2 tid
        = get_processing_status store tid) := by
  unfold analyze_pdf_endpoint
  rw [h]
  exact ⟨rfl, rfl, fun _ => rfl⟩

/-- Witness for C10 at the filename `"doc.txt"` and the empty store. -/
theorem non_pdf_rejected_without_job_witness :
    (analyze_pdf_endpoint [] "doc.txt" "id-1").2 = []
    ∧ (analyze_pdf_endpoint [] "doc.txt" "id-1").1
        = .httpError 500 (httpExcStr 400 "File must be a PDF")
    ∧ (∀ tid, get_processing_status (analyze_pdf_endpoint [] "doc.txt" "id-1").2 tid
        = get_processing_status [] tid) :=
  non_pdf_rejected_without_job [] "doc.txt" "id-1" (by decide)

end LegalAI
